import Mathlib

/-
Verification of the debsources checksum subsystem: a shallow embedding of
src/python/models.py (the Checksum search engine, the Location resolver and
SourceFile.get_sha256sum) and src/python/plugins/hook_checksums.py (the
checksum ingestion and removal passes), together with proofs of the claims
about them.

Conventions of the embedding:
- database tables are lists of row structures mirroring the SQLAlchemy
  models; SQLAlchemy queries become list joins, filters and sorts;
- the filesystem is an association list from path strings to file contents;
  a directory is represented by an entry for its path;
- Python exceptions become an Except monad over an explicit error type;
- Python string slicing line[a:b] becomes take and drop over the char list.
-/

deriving instance DecidableEq for Except

namespace Debsources

/-- Errors raised by the modelled code: InvalidPackageOrVersionError and
FileOrFolderNotFound from excepts.py (the spec calls the latter
NotFoundError), IOError for filesystem failures, NameError and IndexError
for the corresponding Python runtime errors. -/
inductive PyErr where
  | invalidPackageOrVersionError (msg : String)
  | fileOrFolderNotFound (msg : String)
  | ioError (msg : String)
  | nameError (msg : String)
  | indexError (msg : String)
deriving Repr, DecidableEq

/-- Row of the packages table (models.py, class Package): unique name. -/
structure PackageRow where
  id : Nat
  name : String
deriving Repr, DecidableEq

/-- Row of the versions table (models.py, class Version). -/
structure VersionRow where
  id : Nat
  vnumber : String
  package_id : Nat
  area : String
deriving Repr, DecidableEq

/-- Row of the files table (models.py, class File). -/
structure FileRow where
  id : Nat
  version_id : Nat
  path : String
deriving Repr, DecidableEq

/-- Row of the checksums table (models.py, class Checksum): the model
defines exactly the columns id, version_id, file_id and sha256. -/
structure ChecksumRow where
  id : Nat
  version_id : Nat
  file_id : Nat
  sha256 : String
deriving Repr, DecidableEq

/-- The database as seen by the modelled code. -/
structure DB where
  packages : List PackageRow
  versions : List VersionRow
  files : List FileRow
  checksums : List ChecksumRow
deriving Repr, DecidableEq

/-- The filesystem: an association list from paths to contents; existence
of a path (file or directory) is membership of its key. -/
abbrev FS := List (String × String)

def fsExists (fs : FS) (p : String) : Bool :=
  fs.any (fun e => e.1 == p)

def fsRead (fs : FS) (p : String) : Except PyErr String :=
  match fs.find? (fun e => e.1 == p) with
  | some e => .ok e.2
  | none => .error (.ioError p)

def fsWrite (fs : FS) (p c : String) : FS :=
  (p, c) :: fs.filter (fun e => !(e.1 == p))

def fsUnlink (fs : FS) (p : String) : FS :=
  fs.filter (fun e => !(e.1 == p))

/-- b.startswith(sep) for the one-character separator: the first character
of s is c. -/
def strHeadIs (s : String) (c : Char) : Bool :=
  match s.toList with
  | [] => false
  | d :: _ => d == c

/-- a.endswith(sep) for the one-character separator: the last character of
s is c. -/
def strLastIs (s : String) (c : Char) : Bool :=
  match s.toList.getLast? with
  | some d => d == c
  | none => false

/-- os.path.join for two components (posixpath.join): an absolute second
component replaces the first; otherwise a separator is inserted unless the
accumulated path is empty or already ends with one. -/
def pjoin (a b : String) : String :=
  if strHeadIs b '/' then b
  else if a = "" || strLastIs a '/' then a ++ b
  else a ++ "/" ++ b

/-- os.path.join folded over several components. -/
def pjoinList (a : String) (bs : List String) : String :=
  bs.foldl pjoin a

/-- Modelled from the spec: the AREAS constant is imported from consts.py,
which is not among the given sources. The spec glossary and section 4.5 fix
the known distribution areas and their probe order as main, contrib,
non-free. -/
def AREAS : List String := ["main", "contrib", "non-free"]

/-- session.query(Package).filter(Package.name == package).first() -/
def firstPackage (db : DB) (package : String) : Option PackageRow :=
  db.packages.find? (fun p => p.name == package)

/-- session.query(Version).filter(and_(Version.package_id == p_id,
Version.vnumber == version)).first() -/
def firstVersion (db : DB) (p_id : Nat) (version : String) : Option VersionRow :=
  db.versions.find? (fun v => v.package_id == p_id && v.vnumber == version)

/-- Modelled from the spec: dbutils.lookup_version is not among the given
sources. Per the spec (section 4.5 step 2 and section 3) it resolves the
Version metadata row for an exact (package name, version string) pair and
fails with InvalidPackageOrVersionError when the pair is not indexed. -/
def lookup_version (db : DB) (package version : String) : Except PyErr VersionRow :=
  match firstPackage db package with
  | none => .error (.invalidPackageOrVersionError (package ++ " " ++ version))
  | some p =>
    match firstVersion db p.id version with
    | none => .error (.invalidPackageOrVersionError (package ++ " " ++ version))
    | some v => .ok v

/-- The bucket computation at the start of Location._get_debian_path:
if package[0:3] == "lib" the bucket is package[0:4], otherwise package[0].
Indexing an empty string with package[0] raises IndexError. -/
def bucket (package : String) : Except PyErr String :=
  if package.take 3 = "lib" then .ok (package.take 4)
  else if package = "" then .error (.indexError "string index out of range")
  else .ok (package.take 1)

/-- The try block of Location._get_debian_path: the area of the metadata row
for (package, version), or none when either first() returns no row, in which
case the attribute access on None raises and the bare except runs. -/
def metaArea (db : DB) (package version : String) : Option String :=
  match firstPackage db package with
  | none => none
  | some p =>
    match firstVersion db p.id version with
    | none => none
    | some v => some v.area

/-- Location._get_debian_path (models.py): compute the bucket, try the
metadata lookup, and on failure probe each area in AREAS for an existing
directory sources_dir/area/bucket/package/version, raising
InvalidPackageOrVersionError when none exists. -/
def get_debian_path (db : DB) (fs : FS) (package version sources_dir : String) :
    Except PyErr String :=
  match bucket package with
  | .error e => .error e
  | .ok pfx =>
    match metaArea db package version with
    | some varea => .ok (pjoin varea pfx)
    | none =>
      match AREAS.find?
          (fun area => fsExists fs (pjoinList sources_dir [area, pfx, package, version])) with
      | some area => .ok (pjoin area pfx)
      | none => .error (.invalidPackageOrVersionError (package ++ " " ++ version))

/-- The attributes computed by Location.__init__ (models.py). -/
structure Location where
  package : String
  version : String
  path : String
  path_to : String
  sources_path : String
  sources_path_static : String
deriving Repr, DecidableEq

/-- Location.__init__ (models.py): resolve the debian path, build
sources_path = sources_dir/debian_path/package/version/path, and raise
FileOrFolderNotFound(path_to) when that path does not exist on disk. -/
def Location.init (db : DB) (fs : FS) (sources_dir sources_static package version path : String) :
    Except PyErr Location :=
  match get_debian_path db fs package version sources_dir with
  | .error e => .error e
  | .ok debian_path =>
    let path_to := pjoinList package [version, path]
    let sources_path := pjoinList sources_dir [debian_path, path_to]
    if fsExists fs sources_path then
      .ok { package := package, version := version, path := path, path_to := path_to,
            sources_path := sources_path,
            sources_path_static := pjoinList sources_static [debian_path, path_to] }
    else
      .error (.fileOrFolderNotFound path_to)

/-! ### The sidecar listing format (hook_checksums.py) -/

/-- The whitespace characters stripped by the Python str.rstrip() method
with no argument. -/
def isPySpace (c : Char) : Bool :=
  c == ' ' || c == '\t' || c == '\n' || c == '\r' || c == '\x0b' || c == '\x0c'

/-- line.rstrip(): remove the trailing run of whitespace characters. -/
def pyRstrip (l : List Char) : List Char :=
  (l.reverse.dropWhile isPySpace).reverse

/-- Iterating a Python file object yields each line with its trailing
newline kept; a final fragment with no newline is yielded only when it is
nonempty. -/
def pyLinesAux : List Char → List Char → List (List Char)
  | [], acc => if acc.isEmpty then [] else [acc.reverse]
  | c :: rest, acc =>
    if c = '\n' then (c :: acc).reverse :: pyLinesAux rest []
    else pyLinesAux rest (c :: acc)

def pyLines (s : List Char) : List (List Char) :=
  pyLinesAux s []

/-- One iteration of the parse_checksums loop: line = line.rstrip();
sha256 = line[0:64]; path = line[66:]. -/
def parseLine (line : List Char) : String × String :=
  let r := pyRstrip line
  (String.mk (r.take 64), String.mk (r.drop 66))

/-- parse_checksums (hook_checksums.py): parse sha256 checksums from a file
in SHA256SUM(1) format, yielding (sha256, path) pairs. -/
def parse_checksums (content : String) : List (String × String) :=
  (pyLines content.toList).map parseLine

/-- The line written by add_package for one file:
out.write(sha256 + two spaces + relpath + newline). -/
def checksumLine (sha256 relpath : String) : String :=
  sha256 ++ "  " ++ relpath ++ "\n"

/-- Lowercase hexadecimal digit, the alphabet of sha256 hexdigests. -/
def isHexChar (c : Char) : Bool :=
  ('0' ≤ c && c ≤ '9') || ('a' ≤ c && c ≤ 'f')

/-! ### The checksums hook plugin (hook_checksums.py) -/

/-- The configuration consulted by the hooks: conf has a passes entry
listing the enabled passes (hooks.fs, hooks.db). -/
structure Conf where
  passes : List String
deriving Repr, DecidableEq

/-- sums_path (hook_checksums.py): pkgdir + MY_EXT where MY_EXT is
".checksums". -/
def sums_path (pkgdir : String) : String :=
  pkgdir ++ ".checksums"

/-- The body of the sidecar-writing loop in add_package. The loop variable
is relpath, but the body reads the name path, which is bound nowhere in the
function or its module; evaluating os.path.islink(path) on the first
iteration therefore raises NameError. An empty walk never enters the body,
so the written content is then empty. -/
def checksumLoop : List String → Except PyErr String
  | [] => .ok ""
  | _ :: _ => .error (.nameError "name path is not defined")

/-- The hooks.fs block of add_package: if the sidecar file does not already
exist, write the loop output to a temporary file and rename it into place.
On an exception the sidecar is not created (the partly written temporary file is
not observed by any modelled operation). -/
def fsPass (conf : Conf) (walkEntries : List String) (fs : FS) (sumsfile : String) :
    Except PyErr FS :=
  if "hooks.fs" ∈ conf.passes then
    if fsExists fs sumsfile then .ok fs
    else
      match checksumLoop walkEntries with
      | .error e => .error e
      | .ok content => .ok (fsWrite fs sumsfile content)
  else .ok fs

/-- The rows added by the insertion loop of add_package: for each parsed
(sha256, relpath) pair, look up the File row of this version with that
path; when found, construct a Checksum row (the id column is assigned by
the store and carries no meaning here). -/
def checksumInserts (db : DB) (version : VersionRow) (pairs : List (String × String)) :
    List ChecksumRow :=
  pairs.filterMap (fun pr =>
    (db.files.find? (fun f => f.version_id == version.id && f.path == pr.2)).map
      (fun f => { id := 0, version_id := version.id, file_id := f.id, sha256 := pr.1 }))

/-- The hooks.db block of add_package: look up the version, and only if the
store holds no Checksum row at all for it, parse the sidecar and add a row
for every pair whose path has a File row. Returns the updated database and
the list of rows this run added. -/
def dbPass (conf : Conf) (fs : FS) (db : DB) (package version sumsfile : String) :
    Except PyErr (DB × List ChecksumRow) :=
  if "hooks.db" ∈ conf.passes then
    match lookup_version db package version with
    | .error e => .error e
    | .ok v =>
      match db.checksums.find? (fun c => c.version_id == v.id) with
      | some _ => .ok (db, [])
      | none =>
        match fsRead fs sumsfile with
        | .error e => .error e
        | .ok content =>
          let rows := checksumInserts db v (parse_checksums content)
          .ok ({ db with checksums := db.checksums ++ rows }, rows)
  else .ok (db, [])

/-- add_package (hook_checksums.py): the filesystem pass followed by the
database pass. walkEntries is the sequence produced by
fs_storage.walk_pkg_files(pkgdir), a collaborator outside the given
sources. -/
def add_package (conf : Conf) (walkEntries : List String) (fs : FS) (db : DB)
    (package version pkgdir : String) : Except PyErr (FS × DB × List ChecksumRow) :=
  match fsPass conf walkEntries fs (sums_path pkgdir) with
  | .error e => .error e
  | .ok fs1 =>
    match dbPass conf fs1 db package version (sums_path pkgdir) with
    | .error e => .error e
    | .ok (db1, rows) => .ok (fs1, db1, rows)

/-- rm_package (hook_checksums.py): unlink the sidecar when it exists, then
delete every Checksum row of the version. -/
def rm_package (conf : Conf) (fs : FS) (db : DB) (package version pkgdir : String) :
    Except PyErr (FS × DB) :=
  let fs1 :=
    if "hooks.fs" ∈ conf.passes then
      if fsExists fs (sums_path pkgdir) then fsUnlink fs (sums_path pkgdir) else fs
    else fs
  if "hooks.db" ∈ conf.passes then
    match lookup_version db package version with
    | .error e => .error e
    | .ok v =>
      .ok (fs1, { db with checksums := db.checksums.filter (fun c => !(c.version_id == v.id)) })
  else .ok (fs1, db)

/-! ### The checksum search engine (models.py, class Checksum) -/

/-- One row selected by Checksum._query_checksum: Package.name,
Version.vnumber, Checksum.file_id and File.path. -/
structure CFRow where
  package : String
  version : String
  file_id : Nat
  path : String
deriving Repr, DecidableEq

/-- The sort key of the order_by clause: (package, version, path),
compared lexicographically with the lexical string order (strings are
compared as their character sequences). -/
def rowKey (r : CFRow) : Lex (List Char × Lex (List Char × List Char)) :=
  toLex (r.package.data, toLex (r.version.data, r.path.data))

def cfLE (a b : CFRow) : Prop :=
  rowKey a ≤ rowKey b

instance : DecidableRel cfLE :=
  fun a b => inferInstanceAs (Decidable (rowKey a ≤ rowKey b))

instance : IsTotal CFRow cfLE :=
  ⟨fun a b => le_total (rowKey a) (rowKey b)⟩

instance : IsTrans CFRow cfLE :=
  ⟨fun _ _ _ h1 h2 => le_trans h1 h2⟩

/-- The equality join of _query_checksum before the optional package filter:
the cross product of checksums, versions, files and packages restricted by
Checksum.sha256 == checksum, Checksum.version_id == Version.id,
Checksum.file_id == File.id and Version.package_id == Package.id. -/
def baseJoin (db : DB) (checksum : String) : List CFRow :=
  db.checksums.flatMap (fun c =>
    db.versions.flatMap (fun v =>
      db.files.flatMap (fun f =>
        db.packages.filterMap (fun p =>
          if c.sha256 == checksum && c.version_id == v.id &&
             c.file_id == f.id && v.package_id == p.id then
            some { package := p.name, version := v.vnumber, file_id := f.id, path := f.path }
          else none))))

/-- The optional package filter of _query_checksum: applied only when the
argument is not None and not the empty string. -/
def applyPkgFilter (q : List CFRow) (package : Option String) : List CFRow :=
  match package with
  | some s => if s = "" then q else q.filter (fun r => r.package == s)
  | none => q

/-- Checksum._query_checksum (models.py): the join, the optional package
filter, and order_by(package, version, path). -/
def query_checksum (db : DB) (checksum : String) (package : Option String) : List CFRow :=
  List.insertionSort cfLE (applyPkgFilter (baseJoin db checksum) package)

/-- One entry of the list returned by Checksum.files_with_sum:
dict(path, package, version). -/
structure FileHit where
  package : String
  version : String
  path : String
deriving Repr, DecidableEq

def toHit (r : CFRow) : FileHit :=
  { package := r.package, version := r.version, path := r.path }

/-- The ordering claimed for the result list: lexicographic on
(package name, version string, path), each compared lexically. -/
def hitLE (a b : FileHit) : Prop :=
  toLex (a.package.data, toLex (a.version.data, a.path.data)) ≤
    toLex (b.package.data, toLex (b.version.data, b.path.data))

/-- SQLAlchemy Query.slice(start, stop): offset start, limit stop - start. -/
def pySlice (l : List CFRow) (s : Nat × Nat) : List CFRow :=
  (l.drop s.1).take (s.2 - s.1)

/-- Checksum.files_with_sum (models.py): the ordered query, optionally
sliced, projected to (package, version, path) dictionaries. -/
def files_with_sum (db : DB) (checksum : String) (slice_ : Option (Nat × Nat))
    (package : Option String) : List FileHit :=
  let results := query_checksum db checksum package
  let results :=
    match slice_ with
    | some s => pySlice results s
    | none => results
  results.map toHit

/-- Checksum.count_files_with_sum (models.py): the count of the unsliced
query. -/
def count_files_with_sum (db : DB) (checksum : String) (package : Option String) : Nat :=
  (query_checksum db checksum package).length

/-! ### SourceFile.get_sha256sum (models.py) -/

/-- The column attributes the Checksum model class defines. -/
def checksumAttrNames : List String :=
  ["id", "version_id", "file_id", "sha256"]

/-- SourceFile.get_sha256sum (models.py): inside a try block the query
chain filters on Checksum.path; the Checksum model defines no attribute
named path, so building that filter raises AttributeError, and the bare
except Exception handler yields None. Were the attribute defined, the query
would return the first sha256 of a checksum row joined to this package,
version and path; that branch is unreachable, and the path condition it
would add is not expressible against the model. -/
def get_sha256sum (db : DB) (package version path : String) : Option String :=
  if "path" ∈ checksumAttrNames then
    (db.checksums.flatMap (fun c =>
      db.versions.flatMap (fun v =>
        db.packages.filterMap (fun p =>
          if c.version_id == v.id && v.package_id == p.id &&
             p.name == package && v.vnumber == version then
            some c.sha256
          else none)))).head?
  else none

/-! ### Concrete instances used by witnesses and counterexamples -/

/-- A 64-hex-character digest (aaa...a). -/
def sha64 : String := String.mk (List.replicate 64 'a')

/-- A second 64-hex-character digest (bbb...b). -/
def sha64b : String := String.mk (List.replicate 64 'b')

/-- A store holding package zlib, version 1.2.8, file zlib.h with digest
sha64. -/
def dbZlib : DB :=
  { packages := [⟨1, "zlib"⟩],
    versions := [⟨1, "1.2.8", 1, "main"⟩],
    files := [⟨1, 1, "zlib.h"⟩],
    checksums := [⟨1, 1, 1, sha64⟩] }

/-- A store in which the digest sha64 is present in ten packages. -/
def dbTen : DB :=
  { packages := [⟨0, "p0"⟩, ⟨1, "p1"⟩, ⟨2, "p2"⟩, ⟨3, "p3"⟩, ⟨4, "p4"⟩,
                 ⟨5, "p5"⟩, ⟨6, "p6"⟩, ⟨7, "p7"⟩, ⟨8, "p8"⟩, ⟨9, "p9"⟩],
    versions := [⟨0, "1.0", 0, "main"⟩, ⟨1, "1.0", 1, "main"⟩, ⟨2, "1.0", 2, "main"⟩,
                 ⟨3, "1.0", 3, "main"⟩, ⟨4, "1.0", 4, "main"⟩, ⟨5, "1.0", 5, "main"⟩,
                 ⟨6, "1.0", 6, "main"⟩, ⟨7, "1.0", 7, "main"⟩, ⟨8, "1.0", 8, "main"⟩,
                 ⟨9, "1.0", 9, "main"⟩],
    files := [⟨0, 0, "f.c"⟩, ⟨1, 1, "f.c"⟩, ⟨2, 2, "f.c"⟩, ⟨3, 3, "f.c"⟩, ⟨4, 4, "f.c"⟩,
              ⟨5, 5, "f.c"⟩, ⟨6, 6, "f.c"⟩, ⟨7, 7, "f.c"⟩, ⟨8, 8, "f.c"⟩, ⟨9, 9, "f.c"⟩],
    checksums := [⟨0, 0, 0, sha64⟩, ⟨1, 1, 1, sha64⟩, ⟨2, 2, 2, sha64⟩, ⟨3, 3, 3, sha64⟩,
                  ⟨4, 4, 4, sha64⟩, ⟨5, 5, 5, sha64⟩, ⟨6, 6, 6, sha64⟩, ⟨7, 7, 7, sha64⟩,
                  ⟨8, 8, 8, sha64⟩, ⟨9, 9, 9, sha64⟩] }

/-! ### Helper lemmas -/

theorem fsExists_fsWrite (fs : FS) (p c : String) : fsExists (fsWrite fs p c) p = true := by
  simp [fsExists, fsWrite]

theorem fsUnlink_of_not_exists (fs : FS) (p : String) (h : fsExists fs p = false) :
    fsUnlink fs p = fs := by
  rw [fsUnlink, List.filter_eq_self]
  intro e he
  rw [fsExists] at h
  have hall := (List.any_eq_false).mp h e he
  simp only [Bool.not_eq_true] at hall
  simp [hall]

/-! ### Theorems for the claims -/

/-- Claim C10: for every digest, calling files_with_sum or
count_files_with_sum with the package filter equal to the empty string
returns exactly the same result as calling it with no package filter: the
empty string is treated as an absent filter, not as an exact package name
that matches nothing. -/
theorem claim10_empty_package_filter (db : DB) (checksum : String) (slice_ : Option (Nat × Nat)) :
    files_with_sum db checksum slice_ (some "") = files_with_sum db checksum slice_ none ∧
    count_files_with_sum db checksum (some "") = count_files_with_sum db checksum none := by
  constructor <;> rfl

/-- Claim C9: for every session and every location, SourceFile.get_sha256sum
returns None and never raises: its query filters on the attribute
Checksum.path, which the Checksum model does not define, so the lookup
always fails inside the try block and the exception handler maps every
failure to a None result. -/
theorem claim9_get_sha256sum_none (db : DB) (package version path : String) :
    get_sha256sum db package version path = none := by
  simp [get_sha256sum, checksumAttrNames]

/-- Claim C4 evidence: on a package directory whose walk yields a regular
file and a symbolic link, add_package does not produce the sidecar with the
target line and without the link line, as the claim states; instead the
first loop iteration raises NameError, because the loop binds relpath while
the body reads the undefined name path. -/
theorem claim4_walk_nameerror :
    add_package { passes := ["hooks.fs"] } ["f.c", "lnk"] [] ⟨[], [], [], []⟩
      "pkg" "1.0" "/srv/sources/main/p/pkg/1.0" =
    .error (.nameError "name path is not defined") := by
  rfl

/-- Claim C3: for every (package, version) whose metadata lookup fails,
location resolution falls back to a deterministic on-disk probe: it tries
each known area in the fixed priority order of AREAS, testing whether
root/area/bucket/package/version exists, where the bucket is the first 4
characters of the package name when the name starts with lib and the first
character otherwise; it selects the first area whose path exists, and
raises InvalidPackageOrVersionError if no area yields an existing path. -/
theorem claim3_debian_path_probe (db : DB) (fs : FS)
    (package version sources_dir pfx : String)
    (hb : bucket package = .ok pfx)
    (hm : metaArea db package version = none) :
    ((package.take 3 = "lib" → pfx = package.take 4) ∧
     (package.take 3 ≠ "lib" → pfx = package.take 1)) ∧
    get_debian_path db fs package version sources_dir =
      (match AREAS.find?
          (fun area => fsExists fs (pjoinList sources_dir [area, pfx, package, version])) with
       | some area => .ok (pjoin area pfx)
       | none => .error (.invalidPackageOrVersionError (package ++ " " ++ version))) := by
  refine ⟨⟨?_, ?_⟩, ?_⟩
  · intro h3
    rw [bucket, if_pos h3] at hb
    injection hb with hb
    exact hb.symm
  · intro h3
    rw [bucket, if_neg h3] at hb
    split at hb
    · exact (Except.noConfusion hb)
    · injection hb with hb
      exact hb.symm
  · simp only [get_debian_path, hb, hm]

/-- Witness for claim C3: a package purged from the metadata but present on
disk under contrib resolves to the contrib area by the probe. -/
theorem claim3_witness :
    bucket "zlib" = .ok "z" ∧
    metaArea ⟨[], [], [], []⟩ "zlib" "1.2.8" = none ∧
    get_debian_path ⟨[], [], [], []⟩ [("/srv/contrib/z/zlib/1.2.8", "")]
      "zlib" "1.2.8" "/srv" = .ok "contrib/z" := by
  refine ⟨rfl, rfl, ?_⟩
  have h := (claim3_debian_path_probe ⟨[], [], [], []⟩ [("/srv/contrib/z/zlib/1.2.8", "")]
      "zlib" "1.2.8" "/srv" "z" rfl rfl).2
  rw [h]
  rfl

/-- Claim C5: for every (package, version, path) for which area resolution
succeeds, if the final computed filesystem path
root/area/bucket/package/version/path does not exist on disk, constructing
the Location fails with FileOrFolderNotFound (the NotFoundError of the
spec) rather than returning a Location. -/
theorem claim5_location_notfound (db : DB) (fs : FS)
    (sources_dir sources_static package version path dp : String)
    (h : get_debian_path db fs package version sources_dir = .ok dp)
    (hne : fsExists fs (pjoinList sources_dir [dp, pjoinList package [version, path]]) = false) :
    Location.init db fs sources_dir sources_static package version path =
      .error (.fileOrFolderNotFound (pjoinList package [version, path])) := by
  simp [Location.init, h, hne]

/-- Witness for claim C5: metadata resolves the area of zlib 1.2.8 to main,
but the file is absent on disk, so Location construction fails with
FileOrFolderNotFound. -/
theorem claim5_witness :
    Location.init ⟨[⟨1, "zlib"⟩], [⟨1, "1.2.8", 1, "main"⟩], [], []⟩ [] "/srv" "/static"
      "zlib" "1.2.8" "zlib.h" =
    .error (.fileOrFolderNotFound "zlib/1.2.8/zlib.h") := by
  have h := claim5_location_notfound ⟨[⟨1, "zlib"⟩], [⟨1, "1.2.8", 1, "main"⟩], [], []⟩ []
      "/srv" "/static" "zlib" "1.2.8" "zlib.h" "main/z" rfl rfl
  rw [h]
  rfl

/-- Claim C6: for every digest and optional package filter,
count_files_with_sum equals the length of the full, unsliced ordered result
of files_with_sum, and files_with_sum with slice (a, b) returns exactly the
entries occupying positions a through b-1 of that full ordered result. -/
theorem claim6_slice_count (db : DB) (checksum : String) (package : Option String) (a b : Nat) :
    count_files_with_sum db checksum package =
      (files_with_sum db checksum none package).length ∧
    (files_with_sum db checksum (some (a, b)) package).length =
      min (b - a) ((files_with_sum db checksum none package).length - a) ∧
    ∀ i, i < b - a →
      (files_with_sum db checksum (some (a, b)) package)[i]? =
        (files_with_sum db checksum none package)[a + i]? := by
  refine ⟨?_, ?_, ?_⟩
  · simp [count_files_with_sum, files_with_sum]
  · simp [files_with_sum, pySlice]
  · intro i hi
    simp [files_with_sum, pySlice, List.getElem?_take, List.getElem?_drop, hi]

/-- Witness for claim C6: a digest present in ten packages; slice (2, 5)
returns 3 entries, the one at position 0 of the slice is the one at
position 2 of the full list, and count still returns 10. -/
theorem claim6_witness :
    count_files_with_sum dbTen sha64 none = 10 ∧
    (files_with_sum dbTen sha64 (some (2, 5)) none).length = 3 ∧
    (files_with_sum dbTen sha64 (some (2, 5)) none)[0]? =
      (files_with_sum dbTen sha64 none none)[2]? := by
  have h := claim6_slice_count dbTen sha64 none 2 5
  refine ⟨h.1.trans (by decide), h.2.1.trans (by decide), ?_⟩
  simpa using h.2.2 0 (by decide)

theorem mem_baseJoin {db : DB} {d : String} {r : CFRow} :
    r ∈ baseJoin db d ↔
      ∃ c ∈ db.checksums, ∃ v ∈ db.versions, ∃ f ∈ db.files, ∃ p ∈ db.packages,
        (c.sha256 = d ∧ c.version_id = v.id ∧ c.file_id = f.id ∧ v.package_id = p.id) ∧
        r = { package := p.name, version := v.vnumber, file_id := f.id, path := f.path } := by
  simp only [baseJoin, List.mem_flatMap, List.mem_filterMap, Option.ite_none_right_eq_some,
    Option.some.injEq, Bool.and_eq_true, beq_iff_eq]
  constructor
  · rintro ⟨c, hc, v, hv, f, hf, p, hp, ⟨⟨⟨h1, h2⟩, h3⟩, h4⟩, h5⟩
    exact ⟨c, hc, v, hv, f, hf, p, hp, ⟨h1, h2, h3, h4⟩, h5.symm⟩
  · rintro ⟨c, hc, v, hv, f, hf, p, hp, ⟨h1, h2, h3, h4⟩, h5⟩
    exact ⟨c, hc, v, hv, f, hf, p, hp, ⟨⟨⟨h1, h2⟩, h3⟩, h4⟩, h5.symm⟩

theorem mem_query_checksum {db : DB} {d : String} {P : Option String} {r : CFRow} :
    r ∈ query_checksum db d P ↔
      r ∈ baseJoin db d ∧ (∀ s, P = some s → s ≠ "" → r.package = s) := by
  rw [query_checksum, List.mem_insertionSort]
  cases P with
  | none => simp [applyPkgFilter]
  | some s =>
    by_cases hs : s = ""
    · subst hs
      simp [applyPkgFilter]
    · simp only [applyPkgFilter, if_neg hs, List.mem_filter, beq_iff_eq]
      constructor
      · rintro ⟨hb, hpkg⟩
        refine ⟨hb, ?_⟩
        rintro t ht _
        injection ht with ht
        exact ht ▸ hpkg
      · rintro ⟨hb, hflt⟩
        exact ⟨hb, hflt s rfl hs⟩

/-- Claim C1 as amended: for every digest D and optional package name P,
files_with_sum returns exactly the set of (package, version, path) triples
that have a persisted Checksum row whose sha256 equals D, restricted to
package name exactly P when P is given and non-empty (an empty-string
filter is treated as no filter), obtained by the equality join
Checksum-File-Version-Package, and the result list is ordered by
(package name, version string lexical order, path). -/
theorem claim1_files_with_sum (db : DB) (d : String) (P : Option String) :
    (∀ r : FileHit, r ∈ files_with_sum db d none P ↔
      ∃ c ∈ db.checksums, ∃ v ∈ db.versions, ∃ f ∈ db.files, ∃ p ∈ db.packages,
        (c.sha256 = d ∧ c.version_id = v.id ∧ c.file_id = f.id ∧ v.package_id = p.id) ∧
        (∀ s, P = some s → s ≠ "" → p.name = s) ∧
        r = { package := p.name, version := v.vnumber, path := f.path }) ∧
    List.Sorted hitLE (files_with_sum db d none P) := by
  constructor
  · intro r
    simp only [files_with_sum, List.mem_map]
    constructor
    · rintro ⟨q, hq, rfl⟩
      obtain ⟨hbase, hflt⟩ := mem_query_checksum.mp hq
      obtain ⟨c, hc, v, hv, f, hf, p, hp, hcond, rfl⟩ := mem_baseJoin.mp hbase
      exact ⟨c, hc, v, hv, f, hf, p, hp, hcond, hflt, rfl⟩
    · rintro ⟨c, hc, v, hv, f, hf, p, hp, hcond, hflt, rfl⟩
      refine ⟨{ package := p.name, version := v.vnumber, file_id := f.id, path := f.path },
        ?_, rfl⟩
      exact mem_query_checksum.mpr
        ⟨mem_baseJoin.mpr ⟨c, hc, v, hv, f, hf, p, hp, hcond, rfl⟩, hflt⟩
  · have hs := List.sorted_insertionSort cfLE (applyPkgFilter (baseJoin db d) P)
    simp only [files_with_sum, query_checksum]
    exact List.Pairwise.map toHit (fun a b h => h) hs

/-- Counterexample to claim C1 as stated: with the package filter given as
the empty string, files_with_sum does not restrict to packages named by the
empty string; it returns a hit whose package name is zlib. -/
theorem claim1_counterexample :
    ∃ r ∈ files_with_sum dbZlib sha64 none (some ""), r.package ≠ "" := by
  decide

theorem mem_files_with_sum_full {db : DB} {d : String} {sl : Option (Nat × Nat)}
    {P : Option String} {r : FileHit} (h : r ∈ files_with_sum db d sl P) :
    r ∈ files_with_sum db d none P := by
  cases sl with
  | none => exact h
  | some s =>
    simp only [files_with_sum, pySlice, List.mem_map] at h ⊢
    obtain ⟨q, hq, rfl⟩ := h
    exact ⟨q, List.mem_of_mem_drop (List.mem_of_mem_take hq), rfl⟩

theorem lookup_version_ok {db : DB} {package version : String} {v : VersionRow}
    (h : lookup_version db package version = .ok v) :
    ∃ p ∈ db.packages, p.name = package ∧
      v ∈ db.versions ∧ v.package_id = p.id ∧ v.vnumber = version := by
  unfold lookup_version at h
  split at h
  · exact (Except.noConfusion h)
  · rename_i p hp
    split at h
    · exact (Except.noConfusion h)
    · rename_i v0 hv
      injection h with h
      subst h
      rw [firstPackage] at hp
      rw [firstVersion] at hv
      have hpm := List.mem_of_find?_eq_some hp
      have hpn : p.name = package := by simpa using List.find?_some hp
      have hvm := List.mem_of_find?_eq_some hv
      have hvprops := List.find?_some hv
      simp only [Bool.and_eq_true, beq_iff_eq] at hvprops
      exact ⟨p, hpm, hpn, hvm, hvprops.1, hvprops.2⟩

/-- Claim C8: on a remove-package event, rm_package deletes the sidecar
listing file if present (and leaves the filesystem unchanged if absent, the
two cases folding into one unlink of the sidecar path) and deletes all
Checksum rows belonging to the looked-up Version, so that a subsequent
checksum search on any digest no longer returns files of that package
version (package names unique, version strings unique per package, as the
schema constraints state). -/
theorem claim8_rm_package (conf : Conf) (fs : FS) (db : DB)
    (package version pkgdir : String) (v : VersionRow)
    (hfs : "hooks.fs" ∈ conf.passes) (hdb : "hooks.db" ∈ conf.passes)
    (hl : lookup_version db package version = .ok v)
    (hpuniq : ∀ p1 ∈ db.packages, ∀ p2 ∈ db.packages, p1.name = p2.name → p1 = p2)
    (hvuniq : ∀ v1 ∈ db.versions, ∀ v2 ∈ db.versions,
      v1.package_id = v2.package_id → v1.vnumber = v2.vnumber → v1 = v2) :
    rm_package conf fs db package version pkgdir =
      .ok (fsUnlink fs (sums_path pkgdir),
        { db with checksums := db.checksums.filter (fun c => !(c.version_id == v.id)) }) ∧
    ∀ d P sl r,
      r ∈ files_with_sum
        { db with checksums := db.checksums.filter (fun c => !(c.version_id == v.id)) } d sl P →
      ¬(r.package = package ∧ r.version = version) := by
  constructor
  · simp only [rm_package, hl, if_pos hdb, if_pos hfs]
    by_cases he : fsExists fs (sums_path pkgdir) = true
    · simp [he]
    · rw [Bool.not_eq_true] at he
      simp [he, fsUnlink_of_not_exists fs _ he]
  · intro d P sl r hr hand
    obtain ⟨hrp, hrv⟩ := hand
    have hr' := mem_files_with_sum_full hr
    simp only [files_with_sum, List.mem_map] at hr'
    obtain ⟨q, hq, rfl⟩ := hr'
    obtain ⟨hbase, -⟩ := mem_query_checksum.mp hq
    obtain ⟨c, hc, v', hv', f, hf, p, hp, ⟨hsha, hcv, hcf, hvp⟩, heq⟩ := mem_baseJoin.mp hbase
    have hcne : c.version_id ≠ v.id := by
      have hflt := (List.mem_filter.mp hc).2
      simpa using hflt
    obtain ⟨p0, hp0mem, hp0name, hvmem, hvpid, hvnum⟩ := lookup_version_ok hl
    subst heq
    simp only [toHit] at hrp hrv
    have hpeq : p = p0 := hpuniq p hp p0 hp0mem (by rw [hp0name]; exact hrp)
    have hveq : v' = v := by
      refine hvuniq v' hv' v hvmem ?_ ?_
      · rw [hvp, hpeq, ← hvpid]
      · rw [hrv, ← hvnum]
    exact hcne (by rw [hcv, hveq])

/-- Witness for claim C8: removing zlib 1.2.8 (two files with digests sha64
and sha64b) unlinks the sidecar and empties its Checksum rows, and a search
on either digest then returns the empty list. -/
theorem claim8_witness :
    rm_package { passes := ["hooks.fs", "hooks.db"] } [("/pd.checksums", "x")]
      { packages := [⟨1, "zlib"⟩], versions := [⟨1, "1.2.8", 1, "main"⟩],
        files := [⟨1, 1, "zlib.h"⟩, ⟨2, 1, "inflate.c"⟩],
        checksums := [⟨1, 1, 1, sha64⟩, ⟨2, 1, 2, sha64b⟩] }
      "zlib" "1.2.8" "/pd" =
      .ok ([],
        { packages := [⟨1, "zlib"⟩], versions := [⟨1, "1.2.8", 1, "main"⟩],
          files := [⟨1, 1, "zlib.h"⟩, ⟨2, 1, "inflate.c"⟩], checksums := [] }) ∧
    files_with_sum
      { packages := [⟨1, "zlib"⟩], versions := [⟨1, "1.2.8", 1, "main"⟩],
        files := [⟨1, 1, "zlib.h"⟩, ⟨2, 1, "inflate.c"⟩], checksums := [] } sha64 none none = [] ∧
    files_with_sum
      { packages := [⟨1, "zlib"⟩], versions := [⟨1, "1.2.8", 1, "main"⟩],
        files := [⟨1, 1, "zlib.h"⟩, ⟨2, 1, "inflate.c"⟩], checksums := [] } sha64b none none
      = [] := by
  have h := claim8_rm_package { passes := ["hooks.fs", "hooks.db"] } [("/pd.checksums", "x")]
    { packages := [⟨1, "zlib"⟩], versions := [⟨1, "1.2.8", 1, "main"⟩],
      files := [⟨1, 1, "zlib.h"⟩, ⟨2, 1, "inflate.c"⟩],
      checksums := [⟨1, 1, 1, sha64⟩, ⟨2, 1, 2, sha64b⟩] }
    "zlib" "1.2.8" "/pd" ⟨1, "1.2.8", 1, "main"⟩ (by decide) (by decide) rfl
    (by decide) (by decide)
  exact ⟨h.1.trans (by decide), by decide, by decide⟩

theorem checksumInserts_version {db : DB} {v : VersionRow} {pairs : List (String × String)}
    {r : ChecksumRow} (h : r ∈ checksumInserts db v pairs) : r.version_id = v.id := by
  simp only [checksumInserts, List.mem_filterMap] at h
  obtain ⟨pr, -, h⟩ := h
  obtain ⟨f, -, rfl⟩ := Option.map_eq_some'.mp h
  rfl

theorem fsPass_ok_again {conf : Conf} {w : List String} {fs fs1 : FS} {s : String}
    (h : fsPass conf w fs s = .ok fs1) : fsPass conf w fs1 s = .ok fs1 := by
  unfold fsPass at h ⊢
  by_cases hm : "hooks.fs" ∈ conf.passes
  · rw [if_pos hm] at h ⊢
    by_cases he : fsExists fs s = true
    · rw [if_pos he] at h
      injection h with h
      subst h
      rw [if_pos he]
    · rw [if_neg he] at h
      split at h
      · exact (Except.noConfusion h)
      · rename_i content hw
        injection h with h
        subst h
        rw [if_pos (fsExists_fsWrite fs s content)]
  · rw [if_neg hm] at h ⊢

theorem dbPass_ok_again {conf : Conf} {fs : FS} {db db1 : DB} {package version s : String}
    {w : List ChecksumRow} (h : dbPass conf fs db package version s = .ok (db1, w)) :
    dbPass conf fs db1 package version s = .ok (db1, []) := by
  unfold dbPass at h ⊢
  by_cases hm : "hooks.db" ∈ conf.passes
  · rw [if_pos hm] at h ⊢
    split at h
    · exact (Except.noConfusion h)
    · rename_i v hl
      split at h
      · rename_i c hfind
        injection h with h
        rw [Prod.mk.injEq] at h
        obtain ⟨rfl, rfl⟩ := h
        simp only [hl, hfind]
      · rename_i hfind
        split at h
        · exact (Except.noConfusion h)
        · rename_i content hread
          injection h with h
          rw [Prod.mk.injEq] at h
          obtain ⟨h1, rfl⟩ := h
          subst h1
          cases hrows : checksumInserts db v (parse_checksums content) with
          | nil =>
            rw [List.append_nil]
            have hl0 : lookup_version ⟨db.packages, db.versions, db.files, db.checksums⟩
                package version = .ok v := hl
            have hrows0 : checksumInserts ⟨db.packages, db.versions, db.files, db.checksums⟩
                v (parse_checksums content) = [] := hrows
            simp only [hl0, hfind, hrows0, List.append_nil]
          | cons r t =>
            have hl0 : lookup_version
                ⟨db.packages, db.versions, db.files, db.checksums ++ r :: t⟩
                package version = .ok v := hl
            have hr : (r.version_id == v.id) = true := by
              have := checksumInserts_version (hrows ▸ List.mem_cons_self r t)
              simpa using this
            have hfind2 : List.find? (fun c => c.version_id == v.id)
                (db.checksums ++ r :: t) = some r := by
              rw [List.find?_append, hfind, Option.none_or]
              exact List.find?_cons_of_pos _ hr
            simp only [hl0, hfind2]
  · rw [if_neg hm] at h ⊢

/-- Claim C2: running the checksum ingestion pass a second time on an
unchanged package version produces the same sidecar listing and the same
set of Checksum rows as one run, with the second run performing zero
additional index writes: the filesystem pass recomputes the sidecar only if
the sidecar file is absent, and the db pass inserts Checksum rows only if
the store contains no Checksum row at all for that Version. -/
theorem claim2_add_package_idem (conf : Conf) (w : List String) (fs : FS) (db : DB)
    (package version pkgdir : String) (fs1 : FS) (db1 : DB) (rows : List ChecksumRow)
    (h : add_package conf w fs db package version pkgdir = .ok (fs1, db1, rows)) :
    add_package conf w fs1 db1 package version pkgdir = .ok (fs1, db1, []) := by
  unfold add_package at h ⊢
  split at h
  · exact (Except.noConfusion h)
  · rename_i fsx hf
    split at h
    · exact (Except.noConfusion h)
    · rename_i dbx rsx hd
      injection h with h
      rw [Prod.mk.injEq, Prod.mk.injEq] at h
      obtain ⟨rfl, rfl, rfl⟩ := h
      simp only [fsPass_ok_again hf, dbPass_ok_again hd]

/-- Witness for claim C2: a first run of add_package over an existing
sidecar line for zlib.h inserts one Checksum row; the second run leaves the
sidecar and the rows unchanged and inserts nothing. -/
theorem claim2_witness :
    add_package { passes := ["hooks.fs", "hooks.db"] } []
      [("/pd.checksums", checksumLine sha64 "zlib.h")]
      { packages := [⟨1, "zlib"⟩], versions := [⟨1, "1.2.8", 1, "main"⟩],
        files := [⟨7, 1, "zlib.h"⟩], checksums := [] }
      "zlib" "1.2.8" "/pd" =
      .ok ([("/pd.checksums", checksumLine sha64 "zlib.h")],
        { packages := [⟨1, "zlib"⟩], versions := [⟨1, "1.2.8", 1, "main"⟩],
          files := [⟨7, 1, "zlib.h"⟩], checksums := [⟨0, 1, 7, sha64⟩] },
        [⟨0, 1, 7, sha64⟩]) ∧
    add_package { passes := ["hooks.fs", "hooks.db"] } []
      [("/pd.checksums", checksumLine sha64 "zlib.h")]
      { packages := [⟨1, "zlib"⟩], versions := [⟨1, "1.2.8", 1, "main"⟩],
        files := [⟨7, 1, "zlib.h"⟩], checksums := [⟨0, 1, 7, sha64⟩] }
      "zlib" "1.2.8" "/pd" =
      .ok ([("/pd.checksums", checksumLine sha64 "zlib.h")],
        { packages := [⟨1, "zlib"⟩], versions := [⟨1, "1.2.8", 1, "main"⟩],
          files := [⟨7, 1, "zlib.h"⟩], checksums := [⟨0, 1, 7, sha64⟩] },
        []) := by
  constructor
  · decide
  · exact claim2_add_package_idem { passes := ["hooks.fs", "hooks.db"] } []
      [("/pd.checksums", checksumLine sha64 "zlib.h")]
      { packages := [⟨1, "zlib"⟩], versions := [⟨1, "1.2.8", 1, "main"⟩],
        files := [⟨7, 1, "zlib.h"⟩], checksums := [] }
      "zlib" "1.2.8" "/pd"
      [("/pd.checksums", checksumLine sha64 "zlib.h")]
      { packages := [⟨1, "zlib"⟩], versions := [⟨1, "1.2.8", 1, "main"⟩],
        files := [⟨7, 1, "zlib.h"⟩], checksums := [⟨0, 1, 7, sha64⟩] }
      [⟨0, 1, 7, sha64⟩] (by decide)

theorem hex_not_space {c : Char} (h : isHexChar c = true) : isPySpace c = false := by
  by_contra hc
  rw [Bool.not_eq_false] at hc
  simp only [isPySpace, Bool.or_eq_true, beq_iff_eq] at hc
  rcases hc with ((((rfl | rfl) | rfl) | rfl) | rfl) | rfl <;> exact absurd h (by decide)

theorem pyLinesAux_no_nl : ∀ (xs rest acc : List Char), (∀ c ∈ xs, c ≠ '\n') →
    pyLinesAux (xs ++ '\n' :: rest) acc =
      ('\n' :: (xs.reverse ++ acc)).reverse :: pyLinesAux rest []
  | [], rest, acc, _ => by simp [pyLinesAux]
  | c :: t, rest, acc, h => by
    have hc : c ≠ '\n' := h c (List.mem_cons_self c t)
    simp only [List.cons_append, pyLinesAux, if_neg hc, List.append_eq]
    rw [pyLinesAux_no_nl t rest (c :: acc) (fun d hd => h d (List.mem_cons_of_mem c hd))]
    simp

/-- Claim C7 as amended: every sidecar listing line carries the digest in
characters [0, 64), a fixed 2-space separator, and the relative path from
character 66 to end of line; for every (digest, relpath) pair written in
the add_package format digest-2spaces-relpath-newline with a
64-hex-character digest, parse_checksums yields back exactly the pair
(digest, relpath), provided the relpath contains no newline and carries no
trailing whitespace (the parser applies str.rstrip to each line, which
would also strip trailing whitespace of the path field). -/
theorem claim7_roundtrip (d p : String)
    (hlen : d.toList.length = 64)
    (hhex : ∀ c ∈ d.toList, isHexChar c = true)
    (hnl : ∀ c ∈ p.toList, c ≠ '\n')
    (hstrip : pyRstrip p.toList = p.toList) :
    parse_checksums (checksumLine d p) = [(d, p)] := by
  have s1 : isPySpace '\n' = true := by decide
  have s2 : isPySpace ' ' = true := by decide
  have hdns : ∀ c ∈ d.toList, isPySpace c = false := fun c hc => hex_not_space (hhex c hc)
  have hdnl : ∀ c ∈ d.toList, c ≠ '\n' := by
    intro c hc he
    subst he
    exact absurd (hdns _ hc) (by decide)
  have hcontent : (checksumLine d p).toList =
      (d.toList ++ ' ' :: ' ' :: p.toList) ++ ['\n'] := by
    have h2 : ("  " : String).toList = [' ', ' '] := rfl
    have h3 : ("\n" : String).toList = ['\n'] := rfl
    simp [checksumLine, h2, h3]
  have hLnl : ∀ c ∈ d.toList ++ ' ' :: ' ' :: p.toList, c ≠ '\n' := by
    intro c hc
    rcases List.mem_append.mp hc with h | h
    · exact hdnl c h
    · simp only [List.mem_cons] at h
      rcases h with rfl | rfl | h
      · decide
      · decide
      · exact hnl c h
  have hlines : pyLines ((d.toList ++ ' ' :: ' ' :: p.toList) ++ ['\n']) =
      [(d.toList ++ ' ' :: ' ' :: p.toList) ++ ['\n']] := by
    rw [pyLines, pyLinesAux_no_nl _ [] [] hLnl]
    simp [pyLinesAux]
  rw [parse_checksums, hcontent, hlines, List.map_cons, List.map_nil]
  have hdnn : d.toList ≠ [] := by
    intro h0
    rw [h0] at hlen
    exact absurd hlen (by decide)
  have hrevall : ((d.toList ++ ' ' :: ' ' :: p.toList) ++ ['\n']).reverse =
      '\n' :: (p.toList.reverse ++ ' ' :: ' ' :: d.toList.reverse) := by
    simp
  have hrst : pyRstrip ((d.toList ++ ' ' :: ' ' :: p.toList) ++ ['\n']) =
      if p.toList = [] then d.toList else d.toList ++ ' ' :: ' ' :: p.toList := by
    rw [pyRstrip, hrevall, List.dropWhile_cons, if_pos s1]
    cases hrev : p.toList.reverse with
    | nil =>
      have hp0 : p.toList = [] := List.reverse_eq_nil_iff.mp hrev
      rw [if_pos hp0, List.nil_append, List.dropWhile_cons, if_pos s2,
        List.dropWhile_cons, if_pos s2]
      cases hd0 : d.toList.reverse with
      | nil => exact absurd (List.reverse_eq_nil_iff.mp hd0) hdnn
      | cons c0 t0 =>
        have hc0 : isPySpace c0 = false := by
          refine hdns c0 ?_
          have hmem : c0 ∈ d.toList.reverse := by
            rw [hd0]
            exact List.mem_cons_self c0 t0
          simpa using hmem
        rw [List.dropWhile_cons, if_neg (by simp [hc0]), ← hd0, List.reverse_reverse]
    | cons h0 t0 =>
      have hp0 : p.toList ≠ [] := by
        intro hz
        rw [hz] at hrev
        simp at hrev
      rw [if_neg hp0]
      have hfix : List.dropWhile isPySpace p.toList.reverse = p.toList.reverse := by
        have hcg := congrArg List.reverse hstrip
        rw [pyRstrip, List.reverse_reverse] at hcg
        exact hcg
      have hh0 : isPySpace h0 = false := by
        by_contra hcon
        rw [Bool.not_eq_false] at hcon
        rw [hrev, List.dropWhile_cons, if_pos hcon] at hfix
        have hle := List.Sublist.length_le (List.dropWhile_sublist (l := t0) isPySpace)
        rw [hfix] at hle
        simp at hle
      rw [List.cons_append, List.dropWhile_cons, if_neg (by simp [hh0])]
      have hback : h0 :: (t0 ++ ' ' :: ' ' :: d.toList.reverse) =
          p.toList.reverse ++ ' ' :: ' ' :: d.toList.reverse := by
        rw [hrev]
        rfl
      rw [hback]
      simp
  rw [parseLine, hrst]
  cases hp0 : p.toList with
  | nil =>
    rw [if_pos rfl]
    have ht : List.take 64 d.toList = d.toList := by
      rw [← hlen]
      exact List.take_length d.toList
    have hd : List.drop 66 d.toList = [] :=
      List.drop_eq_nil_of_le (by rw [hlen]; decide)
    rw [ht, hd]
    have hpe : p = "" := String.ext hp0
    rw [hpe]
    rfl
  | cons q qs =>
    rw [if_neg (by simp), ← hp0]
    have ht : List.take 64 (d.toList ++ ' ' :: ' ' :: p.toList) = d.toList :=
      List.take_left' hlen
    have hd : List.drop 66 (d.toList ++ ' ' :: ' ' :: p.toList) = p.toList := by
      have hsplit : d.toList ++ ' ' :: ' ' :: p.toList =
          (d.toList ++ [' ', ' ']) ++ p.toList := by simp
      rw [hsplit]
      refine List.drop_left' ?_
      rw [List.length_append, hlen]
      rfl
    rw [ht, hd]
    rfl

/-- Counterexample to claim C7 as stated: a relative path with a trailing
space does not round-trip, because parse_checksums rstrips each line and so
returns the path without its trailing space. -/
theorem claim7_counterexample :
    parse_checksums (checksumLine sha64 "f ") ≠ [(sha64, "f ")] := by
  decide

/-- Witness for claim C7: a 64-hex-character digest and the path zlib.h
round-trip exactly through the written line. -/
theorem claim7_witness :
    parse_checksums (checksumLine sha64 "zlib.h") = [(sha64, "zlib.h")] :=
  claim7_roundtrip sha64 "zlib.h" (by decide) (by decide) (by decide) (by decide)

end Debsources
